import Mathlib

/-!
Verification of the glox interpreter (github.com/hutcho66/glox) against its
natural-language specification.  The Go sources are shallowly embedded here:
pure Go functions become Lean functions, the stateful scanner / resolver /
evaluator become explicit state-passing functions, `panic`-based control flow
becomes explicit control results, and Go's `float64` numbers are modelled by
exact rationals (every computation considered in this development stays within
the exactly-representable range of IEEE-754 doubles).
-/

namespace Glox

/-! ## Token model (src/pkg/token/token_type.go, token.go) -/

/-- Token kinds, transcribed from the `TokenType` constants. -/
inductive TokenType where
  | EOF
  | NEW_LINE
  | LEFT_PAREN | RIGHT_PAREN | LEFT_BRACE | RIGHT_BRACE
  | LEFT_BRACKET | RIGHT_BRACKET
  | COMMA | DOT | MINUS | PLUS | SEMICOLON | SLASH | STAR
  | QUESTION | COLON
  | BANG | BANG_EQUAL | EQUAL | EQUAL_EQUAL
  | GREATER | GREATER_EQUAL | LESS | LESS_EQUAL | LAMBDA_ARROW
  | IDENTIFIER | STRING | NUMBER
  | AND | BREAK | CLASS | CONTINUE | ELSE | FALSE | FUN | FOR
  | GET | IF | NIL | OF | OR | RETURN | SET | STATIC | SUPER
  | THIS | TRUE | VAR | WHILE
  deriving DecidableEq, Repr

/-- The keyword table of src/pkg/token/keywords.go, entry for entry.
The file in the repository maps exactly these nineteen words; it has no
entries for the words get and set even though TokenType defines GET and SET
and the parser consumes them. -/
def keywords : List (String × TokenType) :=
  [ ("and", .AND)
  , ("break", .BREAK)
  , ("class", .CLASS)
  , ("continue", .CONTINUE)
  , ("else", .ELSE)
  , ("false", .FALSE)
  , ("for", .FOR)
  , ("fun", .FUN)
  , ("if", .IF)
  , ("nil", .NIL)
  , ("of", .OF)
  , ("or", .OR)
  , ("return", .RETURN)
  , ("static", .STATIC)
  , ("super", .SUPER)
  , ("this", .THIS)
  , ("true", .TRUE)
  , ("var", .VAR)
  , ("while", .WHILE) ]

/-- `LookupKeyword` from keywords.go: a word found in the table yields its
keyword token type, any other word is an IDENTIFIER. -/
def LookupKeyword (word : String) : TokenType :=
  match (keywords.lookup word) with
  | some tokenType => tokenType
  | none => TokenType.IDENTIFIER

/-! ## Error bookkeeping and exit codes
(src/pkg/lox_error/error.go and src/pkg/repl/repl.go) -/

/-- The four error flags of `LoxErrors`.  The reporter sink only receives
messages and plays no role in control flow, so it is not modelled. -/
structure LoxErrors where
  hadScanningError : Bool
  hadParsingError : Bool
  hadResolutionError : Bool
  hadRuntimeError : Bool
  deriving DecidableEq, Repr

def LoxErrors.initial : LoxErrors :=
  { hadScanningError := false, hadParsingError := false
  , hadResolutionError := false, hadRuntimeError := false }

/-- `ScannerError` sets the parsing flag (not the scanning flag) — transcribed
exactly from error.go. -/
def LoxErrors.scannerError (e : LoxErrors) : LoxErrors :=
  { e with hadParsingError := true }

def LoxErrors.parserError (e : LoxErrors) : LoxErrors :=
  { e with hadParsingError := true }

def LoxErrors.resolutionError (e : LoxErrors) : LoxErrors :=
  { e with hadResolutionError := true }

def LoxErrors.runtimeError (e : LoxErrors) : LoxErrors :=
  { e with hadRuntimeError := true }

/-- `HadScanningError` returns the parsing flag in the source. -/
def LoxErrors.HadScanningError (e : LoxErrors) : Bool := e.hadParsingError

def LoxErrors.HadParsingError (e : LoxErrors) : Bool := e.hadParsingError

def LoxErrors.HadResolutionError (e : LoxErrors) : Bool := e.hadResolutionError

def LoxErrors.HadRuntimeError (e : LoxErrors) : Bool := e.hadRuntimeError

/-! ## Scanner (the scanner package shipped in src/pkg/lox_error/error.go) -/

/-- Literal payload of a token: a number or a string.  Numbers are modelled
exactly (`strconv.ParseFloat` rounding to binary doubles is not modelled; the
literals in this development are exactly representable). -/
inductive Literal where
  | num (q : ℚ)
  | str (s : String)
  deriving DecidableEq, Repr

structure Token where
  type : TokenType
  lexeme : String
  literal : Option Literal
  line : Nat
  deriving DecidableEq, Repr

/-- Scanner state: `(source, tokens, start, current, line)` as in the Go
struct, plus the `(line, message)` pairs sent to `lox_error.ScannerError`. -/
structure Scanner where
  source : List Char
  tokens : List Token
  start : Nat
  current : Nat
  line : Nat
  errors : List (Nat × String)
  deriving DecidableEq, Repr

def isDigit (ch : Char) : Bool := ch ≥ '0' && ch ≤ '9'

def isAlpha (ch : Char) : Bool :=
  (ch ≥ 'a' && ch ≤ 'z') || (ch ≥ 'A' && ch ≤ 'Z') || ch = '_'

def isAlphaNumeric (ch : Char) : Bool := isAlpha ch || isDigit ch

/-- `source[i]`, or the NUL byte the Go scanner uses past the end. -/
def charAt (source : List Char) (i : Nat) : Char := source.getD i (Char.ofNat 0)

/-- Fuel-indexed body of the scanner's inner loops: each loop advances the
cursor while its guard holds, and `source.length - i` units of fuel are by
construction enough to reach the guard's failure, so the fuelled rendition
computes exactly the loop's final index. -/
def scanWhileAux (source : List Char) (guard : Char → Bool) : Nat → Nat → Nat
  | 0, i => i
  | fuel + 1, i =>
      if i < source.length ∧ guard (charAt source i) then
        scanWhileAux source guard fuel (i + 1)
      else i

/-- End position of a scanner loop `for guard(s.peek()) { s.advance() }`
started at index `i`. -/
def scanWhile (source : List Char) (guard : Char → Bool) (i : Nat) : Nat :=
  scanWhileAux source guard (source.length - i) i

/-- End position of the `for isDigit(s.peek()) { s.advance() }` loop started
at index `i`. -/
def digitsEnd (source : List Char) (i : Nat) : Nat :=
  scanWhile source isDigit i

/-- End position of the identifier loop `for isAlphaNumeric(s.peek())`. -/
def identEnd (source : List Char) (i : Nat) : Nat :=
  scanWhile source isAlphaNumeric i

/-- End position of the line-comment loop: consume to (not including) the next
newline or the end of input. -/
def commentEnd (source : List Char) (i : Nat) : Nat :=
  scanWhile source (fun c => c ≠ '\n') i

/-- The string loop: advance until the closing quote or the end of input.
The stop index comes from the same loop shape; the newline count is the
number of newline characters passed over. -/
def stringEnd (source : List Char) (i : Nat) : Nat × Nat :=
  let e := scanWhile source (fun c => c ≠ '"') i
  (e, ((source.drop i).take (e - i)).countP (fun c => c = '\n'))

def digitsToNat (cs : List Char) : Nat :=
  cs.foldl (fun acc c => acc * 10 + (c.toNat - '0'.toNat)) 0

/-- The numeric value of a scanned number lexeme (digits with an optional
single dot): `strconv.ParseFloat` modelled exactly over ℚ. -/
def parseDecimal (cs : List Char) : ℚ :=
  let intPart := cs.takeWhile (· ≠ '.')
  let fracPart := (cs.dropWhile (· ≠ '.')).drop 1
  (digitsToNat intPart : ℚ) + (digitsToNat fracPart : ℚ) / (10 ^ fracPart.length : ℚ)

def sliceStr (source : List Char) (a b : Nat) : String :=
  String.mk ((source.drop a).take (b - a))

def Scanner.isAtEnd (s : Scanner) : Bool := s.current ≥ s.source.length

def Scanner.peekAt (s : Scanner) (i : Nat) : Char := charAt s.source i

def Scanner.addTokenWithLiteral (s : Scanner) (tokenType : TokenType)
    (literal : Option Literal) : Scanner :=
  { s with tokens := s.tokens ++
      [{ type := tokenType, lexeme := sliceStr s.source s.start s.current
       , literal := literal, line := s.line }] }

def Scanner.addToken (s : Scanner) (tokenType : TokenType) : Scanner :=
  s.addTokenWithLiteral tokenType none

/-- `s.match(expected)`: consume the next char if it equals `expected`. -/
def Scanner.matchChar (s : Scanner) (expected : Char) : Bool × Scanner :=
  if s.isAtEnd || charAt s.source s.current ≠ expected then (false, s)
  else (true, { s with current := s.current + 1 })

def Scanner.addTokenConditional (s : Scanner) (expected : Char)
    (matchType elseType : TokenType) : Scanner :=
  let (ok, s) := s.matchChar expected
  if ok then s.addToken matchType else s.addToken elseType

/-- `Scanner.number` (error.go): consume digits, then an optional fraction
only when the dot is immediately followed by a digit.  A trailing dot is left
unconsumed and no error is reported. -/
def Scanner.number (s : Scanner) : Scanner :=
  let c1 := digitsEnd s.source s.current
  let c2 :=
    if charAt s.source c1 = '.' ∧ isDigit (charAt s.source (c1 + 1)) then
      digitsEnd s.source (c1 + 1 + 1)
    else c1
  let s := { s with current := c2 }
  s.addTokenWithLiteral .NUMBER (some (.num (parseDecimal
    ((s.source.drop s.start).take (c2 - s.start)))))

/-- `Scanner.identifier`: consume the word and look it up in the keyword
table. -/
def Scanner.identifier (s : Scanner) : Scanner :=
  let e := identEnd s.source s.current
  let s := { s with current := e }
  s.addToken (LookupKeyword (sliceStr s.source s.start e))

/-- `Scanner.string`: advance to the closing quote; unterminated strings
report through the error sink. -/
def Scanner.stringLit (s : Scanner) : Scanner :=
  let (e, nl) := stringEnd s.source s.current
  let s := { s with line := s.line + nl }
  if e ≥ s.source.length then
    { s with current := e, errors := s.errors ++ [(s.line, "Unterminated string.")] }
  else
    let s := { s with current := e + 1 }
    s.addTokenWithLiteral .STRING (some (.str (sliceStr s.source (s.start + 1) (s.current - 1))))

/-- One step of `Scanner.scanToken`, the big switch of error.go.  The
bracket, question-mark and colon symbols have no case in this version of the
file and fall to the default arm. -/
def Scanner.scanToken (s : Scanner) : Scanner :=
  let c := charAt s.source s.current
  let s := { s with current := s.current + 1 }
  match c with
  | '(' => s.addToken .LEFT_PAREN
  | ')' => s.addToken .RIGHT_PAREN
  | '{' => s.addToken .LEFT_BRACE
  | '}' => s.addToken .RIGHT_BRACE
  | ',' => s.addToken .COMMA
  | '.' => s.addToken .DOT
  | '-' => s.addToken .MINUS
  | '+' => s.addToken .PLUS
  | ';' => s.addToken .SEMICOLON
  | '*' => s.addToken .STAR
  | '!' => s.addTokenConditional '=' .BANG_EQUAL .BANG
  | '=' =>
      let (okEq, s1) := s.matchChar '='
      if okEq then s1.addToken .EQUAL_EQUAL
      else
        let (okArrow, s2) := s.matchChar '>'
        if okArrow then s2.addToken .LAMBDA_ARROW
        else s.addToken .EQUAL
  | '<' => s.addTokenConditional '=' .LESS_EQUAL .LESS
  | '>' => s.addTokenConditional '=' .GREATER_EQUAL .GREATER
  | '/' =>
      let (okSlash, s1) := s.matchChar '/'
      if okSlash then { s1 with current := commentEnd s1.source s1.current }
      else s.addToken .SLASH
  | ' ' => s
  | '\r' => s
  | '\t' => s
  | '\n' => { (s.addToken .NEW_LINE) with line := s.line + 1 }
  | '"' => s.stringLit
  | _ =>
      if isDigit c then s.number
      else if isAlpha c then s.identifier
      else { s with errors := s.errors ++ [(s.line, "Unexpected character.")] }

/-- The scan loop of `ScanTokens`.  `scanToken` always advances `current`, so
`source.length + 1` iterations of fuel are always sufficient. -/
def scanLoop : Nat → Scanner → Scanner
  | 0, s => s
  | fuel + 1, s =>
      if s.isAtEnd then s
      else scanLoop fuel (Scanner.scanToken { s with start := s.current })

def NewScanner (source : String) : Scanner :=
  { source := source.data, tokens := [], start := 0, current := 0, line := 1
  , errors := [] }

/-- `ScanTokens`: run the scanner over the whole input, then append EOF. -/
def ScanTokens (source : String) : Scanner :=
  let s0 := NewScanner source
  let s1 := scanLoop (s0.source.length + 1) s0
  { s1 with tokens := s1.tokens ++ [{ type := .EOF, lexeme := "", literal := none, line := s1.line }] }

/-! ## Values (src/pkg/interpreter)

Numbers are exact rationals, arrays are by-value lists (reference aliasing of
Go slices is not modelled; no property below depends on it), maps are the
`map[int]MapPair` of the source rendered as an association list from the
64-bit key hash to the stored `(key, value)` pair, and function values carry
the allocation index that stands for the Go pointer. -/

inductive Value where
  | vnil
  | vbool (b : Bool)
  | vnum (q : ℚ)
  | vstr (s : String)
  | varr (items : List Value)
  | vmap (entries : List (Int × String × Value))
  | vfun (fid : Nat)
  | vnative (name : String)

/-- A glox map value: hash → stored pair, as in `type LoxMap map[int]MapPair`. -/
abbrev LoxMap := List (Int × String × Value)

/-- UTF-8 encoding of one character, byte values as naturals. -/
def utf8Bytes (c : Char) : List Nat :=
  let n := c.toNat
  if n < 0x80 then [n]
  else if n < 0x800 then [0xC0 + n / 0x40, 0x80 + n % 0x40]
  else if n < 0x10000 then
    [0xE0 + n / 0x1000, 0x80 + (n / 0x40) % 0x40, 0x80 + n % 0x40]
  else
    [0xF0 + n / 0x40000, 0x80 + (n / 0x1000) % 0x40, 0x80 + (n / 0x40) % 0x40,
     0x80 + n % 0x40]

/-- 64-bit FNV-1a over a byte sequence, as `hash/fnv.New64a` computes it. -/
def fnv64a (bytes : List Nat) : Nat :=
  bytes.foldl (fun h b => ((h ^^^ b) * 1099511628211) % 2 ^ 64) 14695981039346656037

/-- `Hash` (interpreter.go): FNV-1a of the UTF-8 bytes of the string,
reinterpreted as a signed 64-bit `int` the way `int(h.Sum64())` does. -/
def Hash (v : String) : Int :=
  let h := fnv64a (v.data.flatMap utf8Bytes)
  if h < 2 ^ 63 then (h : Int) else (h : Int) - 2 ^ 64

/-- Go map read `m[hash]`: the stored pair, if the key hash is present. -/
def mapGet (m : LoxMap) (hash : Int) : Option (String × Value) :=
  match m with
  | [] => none
  | (h, k, v) :: rest => if h = hash then some (k, v) else mapGet rest hash

/-- Go map write `m[hash] = MapPair{key, value}`. -/
def mapSet (m : LoxMap) (hash : Int) (key : String) (value : Value) : LoxMap :=
  match m with
  | [] => [(hash, key, value)]
  | (h, k, v) :: rest =>
      if h = hash then (hash, key, value) :: rest
      else (h, k, v) :: mapSet rest hash key value

def mapKeysList (m : LoxMap) : List String := m.map (fun e => e.2.1)

def mapValuesList (m : LoxMap) : List Value := m.map (fun e => e.2.2)

/-! ## Pure evaluation helpers (src/pkg/interpreter/interpreter.go) -/

/-- `isTruthy`: only nil and false are falsy. -/
def isTruthy : Value → Bool
  | .vnil => false
  | .vbool b => b
  | _ => true

/-- `isInteger(value float64) = value == float64(int(value))`: the number has
no fractional part. -/
def isInteger (q : ℚ) : Bool := q.den = 1

/-- Decimal digit string of a nonnegative integer. -/
def natDigits (n : Nat) : String := toString n

/-- `strconv.FormatFloat(v, 'f', -1, 64)` modelled on exact rationals: the
shortest plain decimal rendering.  Every IEEE-754 double has a finite decimal
expansion, realised here by the smallest scaling power of ten. -/
def formatFloat (q : ℚ) : String :=
  if q.den = 1 then toString q.num
  else
    match (List.range 1200).find? (fun k => ((10 : Int) ^ k) % (q.den : Int) = 0) with
    | none => toString q.num ++ "/" ++ toString (q.den : Int)
    | some k =>
        let scaled := (q.num.natAbs * (10 ^ k / q.den))
        let digits := natDigits scaled
        let digits :=
          if digits.length ≤ k then
            String.mk (List.replicate (k + 1 - digits.length) '0') ++ digits
          else digits
        let whole := digits.dropRight k
        let frac := String.mk (digits.data.drop (digits.length - k))
        (if q.num < 0 then "-" else "") ++ whole ++ "." ++ frac

mutual

/-- `Representation` (interpreter.go).  Function and class display names are
not tracked by the model (no claim depends on them). -/
def Representation : Value → String
  | .vnil => "nil"
  | .vstr s => "\"" ++ s ++ "\""
  | .vbool b => if b then "true" else "false"
  | .vnum q => formatFloat q
  | .varr items => "[" ++ String.intercalate ", " (representationList items) ++ "]"
  | .vmap _ => "<map>"
  | .vfun _ => "<fn>"
  | .vnative name => "<native fn " ++ name ++ ">"

/-- Element representations of an array value, in order. -/
def representationList : List Value → List String
  | [] => []
  | v :: rest => Representation v :: representationList rest

end

/-- `concatenate` (interpreter.go): stringify a number or boolean neighbour of
a string `+`, rejecting every other type. -/
def concatenate (stringValue : String) (otherValue : Value) (reverse : Bool) :
    Except String String :=
  match otherValue with
  | .vnum _ | .vbool _ =>
      let other := Representation otherValue
      if reverse then .ok (other ++ stringValue) else .ok (stringValue ++ other)
  | _ => .error ("cannot concatenate string with type " ++ Representation otherValue)

/-- Go interface equality `left == right` on glox values: value equality for
the comparable types, `false` across distinct dynamic types, and a run-time
panic when both operands are arrays or both are maps (Go slices and maps are
not comparable). -/
def goEq : Value → Value → Except String Bool
  | .vnil, .vnil => .ok true
  | .vbool a, .vbool b => .ok (a = b)
  | .vnum a, .vnum b => .ok (a = b)
  | .vstr a, .vstr b => .ok (a = b)
  | .varr _, .varr _ => .error "runtime error: comparing uncomparable type"
  | .vmap _, .vmap _ => .error "runtime error: comparing uncomparable type"
  | .vfun a, .vfun b => .ok (a = b)
  | .vnative a, .vnative b => .ok (a = b)
  | _, _ => .ok false

def Value.asNum : Value → Option ℚ
  | .vnum q => some q
  | _ => none

def Value.asStr : Value → Option String
  | .vstr s => some s
  | _ => none

def Value.asArr : Value → Option (List Value)
  | .varr items => some items
  | _ => none

def Value.asMap : Value → Option LoxMap
  | .vmap entries => some entries
  | _ => none

/-- `VisitBinaryExpression` (interpreter.go lines 708–777) on the two already
evaluated operands: equality comparisons first, then the `+` cascade, then
the numbers-only operators. -/
def visitBinaryExpression (op : TokenType) (left right : Value) :
    Except String Value :=
  match op with
  | .EQUAL_EQUAL => (goEq left right).map Value.vbool
  | .BANG_EQUAL => (goEq left right).map (fun b => Value.vbool !b)
  | .PLUS =>
      match left.asNum, right.asNum with
      | some l, some r => .ok (.vnum (l + r))
      | _, _ =>
        match left.asArr, right.asArr with
        | some l, some r => .ok (.varr (l ++ r))
        | _, _ =>
          match left.asStr, right.asStr with
          | some l, some r => .ok (.vstr (l ++ r))
          | some l, none => (concatenate l right false).map Value.vstr
          | none, some r => (concatenate r left true).map Value.vstr
          | none, none => .error
              "only valid for two numbers, two strings, two arrays, or one string and a number or boolean"
  | _ =>
      match left.asNum, right.asNum with
      | some l, some r =>
          match op with
          | .MINUS => .ok (.vnum (l - r))
          | .SLASH => .ok (.vnum (l / r))
          | .STAR => .ok (.vnum (l * r))
          | .GREATER => .ok (.vbool (l > r))
          | .GREATER_EQUAL => .ok (.vbool (l ≥ r))
          | .LESS => .ok (.vbool (l < r))
          | .LESS_EQUAL => .ok (.vbool (l ≤ r))
          | _ => .error "Unreachable"
      | _, _ => .error "only valid for numbers"

/-- `VisitUnaryExpression` on the evaluated operand. -/
def visitUnaryExpression (op : TokenType) (right : Value) : Except String Value :=
  match op with
  | .BANG => .ok (.vbool !(isTruthy right))
  | .MINUS =>
      match right with
      | .vnum r => .ok (.vnum (-r))
      | _ => .error "Operand must be a number"
  | _ => .error "Unreachable"

/-- `arrayIndexExpression` (interpreter.go lines 547–600) applied to the
already evaluated object and index values.  `right = none` is a plain index,
`right = some v` a slice upper bound.  Strings are indexed here by character
position (the source indexes bytes; the two agree on the ASCII data used
throughout this development). -/
def arrayIndexExpression (object : Value) (left : Value) (right : Option Value) :
    Except String Value :=
  let leftNum := left.asNum
  let rightNum := match right with
    | none => none
    | some v => v.asNum
  match leftNum with
  | none => .error "Index must be integer"
  | some leftIndex =>
    if !isInteger leftIndex then .error "Index must be integer"
    else
      let rightIsNumber := rightNum.isSome
      if rightIsNumber ∧ !isInteger (rightNum.getD 0) then .error "Index must be integer"
      else
        match object with
        | .varr val =>
            let len : Int := val.length
            let l : Int := leftIndex.num
            let r : Int := (rightNum.getD 0).num
            if l < 0 ∨ l ≥ len ∨ (rightIsNumber ∧ (r < 0 ∨ r > len)) then
              .error "Index is out of range"
            else if rightIsNumber ∧ l > r then
              .error "Right index of slice must be greater or equal to left index"
            else if rightIsNumber then
              .ok (.varr ((val.drop l.toNat).take (r.toNat - l.toNat)))
            else
              .ok (val.getD l.toNat .vnil)
        | .vstr str =>
            let len : Int := str.length
            let l : Int := leftIndex.num
            let r : Int := (rightNum.getD 0).num
            if l < 0 ∨ l ≥ len ∨ (rightIsNumber ∧ (r < 0 ∨ r > len)) then
              .error "Index is out of range"
            else if rightIsNumber ∧ l > r then
              .error "Right index of slice must be greater or equal to left index"
            else if rightIsNumber then
              .ok (.vstr (String.mk ((str.data.drop l.toNat).take (r.toNat - l.toNat))))
            else
              .ok (.vstr (String.mk [str.data.getD l.toNat (Char.ofNat 0)]))
        | _ => .error "Unreachable"

/-- `mapIndexExpression` (interpreter.go lines 602–617): slices are rejected,
keys must be strings, and a missing key silently reads the zero `MapPair`,
whose value field is nil. -/
def mapIndexExpression (m : LoxMap) (key : Value) (hasRightIndex : Bool) :
    Except String Value :=
  if hasRightIndex then .error "Cannot slice maps"
  else
    match key.asStr with
    | none => .error "Maps can only be indexed with strings"
    | some k =>
        .ok (((mapGet m (Hash k)).map (fun p => p.2)).getD .vnil)

/-! ## Native callables (src/pkg/interpreter/natives.go) -/

/-- `HasKey.Call`: a membership probe of the key hash. -/
def HasKeyCall (arg0 arg1 : Value) : Except String Value :=
  match arg0.asMap with
  | none => .error "first argument of hasKey must be a map"
  | some m =>
    match arg1.asStr with
    | none => .error "second argument of hasKey must be a string"
    | some key => .ok (.vbool (mapGet m (Hash key)).isSome)

/-- `Keys.Call`: the stored pair keys, in table order. -/
def KeysCall (arg0 : Value) : Except String Value :=
  match arg0.asMap with
  | none => .error "argument of keys must be a map"
  | some m => .ok (.varr (mapKeysList m |>.map Value.vstr))

/-- `Values.Call`: the stored pair values, in table order. -/
def ValuesCall (arg0 : Value) : Except String Value :=
  match arg0.asMap with
  | none => .error "argument of values must be a map"
  | some m => .ok (.varr (mapValuesList m))

/-- `Length.Call` (`len`). -/
def LengthCall (arg0 : Value) : Except String Value :=
  match arg0 with
  | .varr val => .ok (.vnum val.length)
  | .vstr val => .ok (.vnum val.length)
  | _ => .error "can only call len on arrays or strings"

/-- `Size.Call` (`size`). -/
def SizeCall (arg0 : Value) : Except String Value :=
  match arg0 with
  | .vmap m => .ok (.vnum m.length)
  | _ => .error "can only call size on maps"

/-- `String.Call` (`string`). -/
def StringCall (arg0 : Value) : Except String Value :=
  match arg0 with
  | .vstr s => .ok (.vstr s)
  | v => .ok (.vstr (Representation v))

/-- The exit decision of `RunFile` (repl.go): after `run` returns it exits
with 65 if `HadParsingError`, else with 70 if `HadRuntimeError`, and
otherwise the process terminates normally with code 0.  `RunFile` consults no
other flag. -/
def runFileExitCode (e : LoxErrors) : Nat :=
  if e.HadParsingError then 65
  else if e.HadRuntimeError then 70
  else 0

/-- Which pipeline stage of `run` (repl.go) failed.  `run` stops at the first
failing stage: scanning, parsing, resolution, then interpretation. -/
inductive RunOutcome where
  | ok
  | scanFailed
  | parseFailed
  | resolveFailed
  | runtimeFailed
  deriving DecidableEq, Repr

/-- Error flags accumulated by `run` for each possible outcome, following the
early returns in repl.go: each stage reports through the corresponding
`LoxErrors` method before `run` returns. -/
def runFlags : RunOutcome → LoxErrors
  | .ok => LoxErrors.initial
  | .scanFailed => LoxErrors.initial.scannerError
  | .parseFailed => LoxErrors.initial.parserError
  | .resolveFailed => LoxErrors.initial.resolutionError
  | .runtimeFailed => LoxErrors.initial.runtimeError

/-- `RunFile` composed with `run`: the process exit code as a function of
which stage failed. -/
def runFileResult (o : RunOutcome) : Nat :=
  runFileExitCode (runFlags o)

/-! ## AST (src/pkg/ast/expression.go, statement.go)

The classless core: exactly the statement and expression variants that the
interpreter shipped under src implements (its visitor has no class, get, set,
this or super cases).  Each variable and assignment node carries an integer
identity `id`; the Go resolver keys its depth map by node pointer identity,
which the design notes say may equivalently be a unique integer id embedded
during parsing.  A map literal keeps its parallel `Keys`/`Values` lists
zipped into pairs. -/

inductive MethodType where
  | NOT_METHOD | NORMAL_METHOD | STATIC_METHOD | GETTER_METHOD | SETTER_METHOD
  deriving DecidableEq, Repr

mutual

inductive Expr where
  | literal (value : Value)
  | variableExpr (id : Nat) (name : String)
  | assign (id : Nat) (name : String) (value : Expr)
  | grouping (expr : Expr)
  | sequence (items : List Expr)
  | arrayLit (items : List Expr)
  | mapLit (entries : List (Expr × Expr))
  | indexExpr (object : Expr) (leftIndex : Expr) (rightIndex : Option Expr)
  | indexedAssign (object : Expr) (leftIndex : Expr) (value : Expr)
  | unary (op : TokenType) (expr : Expr)
  | binary (op : TokenType) (left right : Expr)
  | logical (op : TokenType) (left right : Expr)
  | ternary (cond cons alt : Expr)
  | call (callee : Expr) (args : List Expr)
  | lambda (fn : FunctionDecl)

inductive Stmt where
  | exprStmt (expr : Expr)
  | varStmt (name : String) (initializer : Option Expr)
  | block (statements : List Stmt)
  | ifStmt (cond : Expr) (consequence : Stmt) (alternative : Option Stmt)
  | loop (cond : Expr) (body : Stmt) (increment : Option Expr)
  | forEach (varName : String) (array : Expr) (body : Stmt)
  | funcStmt (fn : FunctionDecl)
  | ret (value : Option Expr)
  | breakStmt
  | continueStmt

inductive FunctionDecl where
  | mk (name : Option String) (params : List String) (body : List Stmt)
      (kind : MethodType)

end

def FunctionDecl.name : FunctionDecl → Option String
  | .mk n _ _ _ => n

def FunctionDecl.params : FunctionDecl → List String
  | .mk _ p _ _ => p

def FunctionDecl.body : FunctionDecl → List Stmt
  | .mk _ _ b _ => b

def FunctionDecl.kind : FunctionDecl → MethodType
  | .mk _ _ _ k => k

/-! ## Resolver (src/pkg/resolver/resolver.go)

The resolver is a depth-first pass threading a state of scope stack,
function context and loop flag; its panics on resolution errors become
`Except` short-circuits.  In this classless core `currentClass` is constantly
NOT_CLASS and `currentMethod` constantly NOT_METHOD (they change only inside
`VisitClassStatement`, which the interpreter under src does not implement),
so the checks that read them are embedded with those constant values.
Recursion carries fuel so that the definitions stay structural and compute
inside the kernel; any fuel at least as large as the program is enough. -/

inductive FunctionType where
  | NOT_FUNCTION | FUNCTION | METHOD | INITIALIZER
  deriving DecidableEq, Repr

/-- Resolution errors; each constructor stands for the message the source
panics with (e.g. `breakNotInLoop` for the message
`Can not break when not in loop` spelled with an apostrophe in the source).
`outOfFuel` is an artifact of the fuelled embedding and never occurs with
sufficient fuel. -/
inductive ResolutionErrKind where
  | staticOutsideClass
  | alreadyDeclared
  | returnTopLevel
  | returnValueFromInitializer
  | returnValueFromSetter
  | breakNotInLoop
  | continueNotInLoop
  | readInOwnInitializer
  | outOfFuel
  deriving DecidableEq, Repr

/-- Resolver state: the scope stack (innermost scope at the head; the Go
slice keeps it at the end), the current function type, the loop flag, and
the depth map accumulated through `interpreter.Resolve`. -/
structure RState where
  scopes : List (List (String × Bool))
  currentFunction : FunctionType
  loop : Bool
  locals : List (Nat × Nat)
  deriving DecidableEq, Repr

def RState.initial : RState :=
  { scopes := [], currentFunction := .NOT_FUNCTION, loop := false, locals := [] }

/-- Go map write in one scope: replace the binding or add it. -/
def scopeSet (scope : List (String × Bool)) (name : String) (b : Bool) :
    List (String × Bool) :=
  match scope with
  | [] => [(name, b)]
  | (k, v) :: rest =>
      if k = name then (name, b) :: rest else (k, v) :: scopeSet rest name b

def RState.beginScope (r : RState) : RState :=
  { r with scopes := [] :: r.scopes }

def RState.endScope (r : RState) : RState :=
  { r with scopes := r.scopes.tail }

/-- `declare`: mark the name not-yet-defined in the innermost scope;
redeclaration is an error; no scopes means global, which is ignored. -/
def RState.declare (r : RState) (name : String) : Except ResolutionErrKind RState :=
  match r.scopes with
  | [] => .ok r
  | scope :: rest =>
      match scope.lookup name with
      | some _ => .error .alreadyDeclared
      | none => .ok { r with scopes := scopeSet scope name false :: rest }

/-- `define`: mark the name defined in the innermost scope. -/
def RState.define (r : RState) (name : String) : RState :=
  match r.scopes with
  | [] => r
  | scope :: rest => { r with scopes := scopeSet scope name true :: rest }

/-- `resolveLocal`: distance from the innermost scope to the first scope that
has the name (declared or defined); nothing is recorded for globals. -/
def resolveLocalIdx (scopes : List (List (String × Bool))) (name : String) :
    Option Nat :=
  match scopes with
  | [] => none
  | scope :: rest =>
      if (scope.lookup name).isSome then some 0
      else (resolveLocalIdx rest name).map (· + 1)

def RState.resolveLocal (r : RState) (id : Nat) (name : String) : RState :=
  match resolveLocalIdx r.scopes name with
  | some d => { r with locals := r.locals ++ [(id, d)] }
  | none => r

/-- `declare` and `define` of every function parameter, in order. -/
def declareParams (r : RState) : List String → Except ResolutionErrKind RState
  | [] => .ok r
  | p :: rest => do
      let r1 ← r.declare p
      declareParams (r1.define p) rest

mutual

/-- Statement visitors of the resolver. -/
def resolveStmt : Nat → RState → Stmt → Except ResolutionErrKind RState
  | 0, _, _ => .error .outOfFuel
  | fuel + 1, r, stmt =>
    match stmt with
    | .exprStmt e => resolveExpr fuel r e
    | .varStmt name init => do
        let r1 ← r.declare name
        let r2 ← match init with
          | some e => resolveExpr fuel r1 e
          | none => .ok r1
        .ok (r2.define name)
    | .block stmts => do
        let r1 ← resolveStmts fuel r.beginScope stmts
        .ok r1.endScope
    | .ifStmt cond cons alt => do
        let r1 ← resolveExpr fuel r cond
        let r2 ← resolveStmt fuel r1 cons
        match alt with
        | some a => resolveStmt fuel r2 a
        | none => .ok r2
    | .ret value =>
        if r.currentFunction = .NOT_FUNCTION then .error .returnTopLevel
        else
          match value with
          | some v =>
              if r.currentFunction = .INITIALIZER then
                .error .returnValueFromInitializer
              else
                -- currentMethod is constantly NOT_METHOD in the classless
                -- core, so the setter check never fires here.
                resolveExpr fuel r v
          | none => .ok r
    | .breakStmt =>
        if r.loop = false then .error .breakNotInLoop else .ok r
    | .continueStmt =>
        if r.loop = false then .error .continueNotInLoop else .ok r
    | .loop cond body inc => do
        let r1 ← resolveExpr fuel r cond
        let r2 ← resolveStmt fuel { r1 with loop := true } body
        let r3 ← match inc with
          | some i => resolveExpr fuel r2 i
          | none => .ok r2
        .ok { r3 with loop := false }
    | .forEach varName arr body => do
        let r1 ← resolveExpr fuel r arr
        let r2 ← r1.beginScope.declare varName
        let r3 := r2.define varName
        let r4 ← resolveStmt fuel { r3 with loop := true } body
        .ok { r4 with loop := false }.endScope
    | .funcStmt fn => do
        let r1 ← match fn.name with
          | some n => do
              let d ← r.declare n
              .ok (d.define n)
          | none => .ok r
        resolveFunction fuel r1 fn .FUNCTION

/-- `resolveFunction`: static functions are illegal outside a class (the
classless core has `currentClass = NOT_CLASS` throughout); otherwise open the
parameter scope, resolve the body in it, and restore the function context. -/
def resolveFunction : Nat → RState → FunctionDecl → FunctionType →
    Except ResolutionErrKind RState
  | 0, _, _, _ => .error .outOfFuel
  | fuel + 1, r, fn, ftype =>
      if fn.kind = .STATIC_METHOD then .error .staticOutsideClass
      else do
        let enclosingFunction := r.currentFunction
        let r1 := { r with currentFunction := ftype }
        let r2 ← declareParams r1.beginScope fn.params
        let r3 ← resolveStmts fuel r2 fn.body
        .ok { r3.endScope with currentFunction := enclosingFunction }

def resolveStmts : Nat → RState → List Stmt → Except ResolutionErrKind RState
  | 0, _, _ => .error .outOfFuel
  | _ + 1, r, [] => .ok r
  | fuel + 1, r, s :: rest => do
      let r1 ← resolveStmt fuel r s
      resolveStmts fuel r1 rest

/-- Expression visitors of the resolver. -/
def resolveExpr : Nat → RState → Expr → Except ResolutionErrKind RState
  | 0, _, _ => .error .outOfFuel
  | fuel + 1, r, e =>
    match e with
    | .literal _ => .ok r
    | .variableExpr id name =>
        match r.scopes with
        | scope :: _ =>
            if scope.lookup name = some false then .error .readInOwnInitializer
            else .ok (r.resolveLocal id name)
        | [] => .ok (r.resolveLocal id name)
    | .assign id name value => do
        let r1 ← resolveExpr fuel r value
        .ok (r1.resolveLocal id name)
    | .grouping g => resolveExpr fuel r g
    | .sequence items => resolveExprList fuel r items
    | .arrayLit items => resolveExprList fuel r items
    | .mapLit entries => resolveExprPairs fuel r entries
    | .indexExpr o l ri => do
        let r1 ← resolveExpr fuel r o
        let r2 ← resolveExpr fuel r1 l
        match ri with
        | some rexp => resolveExpr fuel r2 rexp
        | none => .ok r2
    | .indexedAssign o l v => do
        let r1 ← resolveExpr fuel r o
        let r2 ← resolveExpr fuel r1 l
        resolveExpr fuel r2 v
    | .unary _ u => resolveExpr fuel r u
    | .binary _ l rr => do
        let r1 ← resolveExpr fuel r l
        resolveExpr fuel r1 rr
    | .logical _ l rr => do
        let r1 ← resolveExpr fuel r l
        resolveExpr fuel r1 rr
    | .ternary c t f => do
        let r1 ← resolveExpr fuel r c
        let r2 ← resolveExpr fuel r1 t
        resolveExpr fuel r2 f
    | .call callee args => do
        let r1 ← resolveExpr fuel r callee
        resolveExprList fuel r1 args
    | .lambda fn => resolveFunction fuel r fn .FUNCTION

def resolveExprList : Nat → RState → List Expr → Except ResolutionErrKind RState
  | 0, _, _ => .error .outOfFuel
  | _ + 1, r, [] => .ok r
  | fuel + 1, r, e :: rest => do
      let r1 ← resolveExpr fuel r e
      resolveExprList fuel r1 rest

def resolveExprPairs : Nat → RState → List (Expr × Expr) →
    Except ResolutionErrKind RState
  | 0, _, _ => .error .outOfFuel
  | _ + 1, r, [] => .ok r
  | fuel + 1, r, (k, v) :: rest => do
      let r1 ← resolveExpr fuel r k
      let r2 ← resolveExpr fuel r1 v
      resolveExprPairs fuel r2 rest

end

/-- `Resolver.Resolve` on a whole program from the initial state. -/
def Resolve (fuel : Nat) (statements : List Stmt) :
    Except ResolutionErrKind RState :=
  resolveStmts fuel RState.initial statements

/-! ## Evaluator (src/pkg/interpreter)

The interpreter mutates a chain of `Environment` values and unwinds
`return`/`break`/`continue` and runtime errors with `panic`/`recover`.  The
embedding passes an explicit state whose arena of frames stands for the
heap-allocated environments (a frame index is a Go pointer), and every
executor returns `Except Esc` for the panic channel.  Recursion carries fuel
so that the definitions stay structural and compute inside the kernel.

The state additionally keeps an instrumentation log: every read or assignment
that goes through a resolver-recorded distance appends a `LookupEvent`
describing the environment chain at that moment.  The log influences nothing
else. -/

def PrintRepresentation : Value → String
  | .vstr s => s
  | v => Representation v

structure EnvFrame where
  values : List (String × Value)
  enclosing : Option Nat

structure LookupEvent where
  exprId : Nat
  name : String
  distance : Nat
  chainLen : Nat
  ancestorHasBinding : Bool
  deriving DecidableEq, Repr

structure InterpState where
  frames : List EnvFrame
  env : Nat
  globalsId : Nat
  locals : List (Nat × Nat)
  functions : List (FunctionDecl × Nat)
  output : List String
  lookups : List LookupEvent

/-- The panic channel: `LoxControl` values, lox runtime errors
(`lox_error.RuntimeError`), raw Go run-time panics, and the fuel artifact of
the embedding. -/
inductive Esc where
  | ret (v : Value)
  | brk
  | cont
  | rerr (msg : String)
  | crash (msg : String)
  | outOfFuel

/-- Go map write on one frame. -/
def valuesSet (vals : List (String × Value)) (name : String) (v : Value) :
    List (String × Value) :=
  match vals with
  | [] => [(name, v)]
  | (k, w) :: rest =>
      if k = name then (name, v) :: rest else (k, w) :: valuesSet rest name v

/-- `define` on the frame `id` (Go map write; creates or replaces). -/
def InterpState.frameDefine (s : InterpState) (id : Nat) (name : String)
    (v : Value) : InterpState :=
  match s.frames.get? id with
  | some f =>
      { s with frames := s.frames.set id { f with values := valuesSet f.values name v } }
  | none => s

/-- `NewEnclosingEnvironment`: allocate a fresh frame. -/
def InterpState.alloc (s : InterpState) (enclosing : Option Nat) :
    Nat × InterpState :=
  (s.frames.length,
   { s with frames := s.frames ++ [{ values := [], enclosing := enclosing }] })

/-- `Environment.ancestor`: follow `enclosing` the given number of times;
`none` when the walk falls off the chain (a nil dereference in Go). -/
def ancestorId (s : InterpState) : Nat → Nat → Option Nat
  | 0, id => some id
  | d + 1, id =>
      match (s.frames.get? id).bind (fun f => f.enclosing) with
      | some e => ancestorId s d e
      | none => none

def chainLenAux (s : InterpState) : Nat → Nat → Nat
  | 0, _ => 0
  | fuel + 1, id =>
      match s.frames.get? id with
      | none => 0
      | some f =>
          match f.enclosing with
          | some e => 1 + chainLenAux s fuel e
          | none => 1

/-- Length of the chain of live environments from frame `id` outwards (frames
only ever point at strictly earlier frames, so `frames.length` fuel always
suffices). -/
def InterpState.chainLen (s : InterpState) (id : Nat) : Nat :=
  chainLenAux s (s.frames.length + 1) id

def envGetAux (s : InterpState) : Nat → Nat → String → Option Value
  | 0, _, _ => none
  | fuel + 1, id, name =>
      match s.frames.get? id with
      | none => none
      | some f =>
          match f.values.lookup name with
          | some v => some v
          | none =>
              match f.enclosing with
              | some e => envGetAux s fuel e name
              | none => none

/-- `Environment.get`: search the chain; `none` is the
`Undefined variable` error. -/
def InterpState.envGet (s : InterpState) (id : Nat) (name : String) :
    Option Value :=
  envGetAux s (s.frames.length + 1) id name

def envAssignAux (s : InterpState) : Nat → Nat → String → Value →
    Option InterpState
  | 0, _, _, _ => none
  | fuel + 1, id, name, v =>
      match s.frames.get? id with
      | none => none
      | some f =>
          if (f.values.lookup name).isSome then some (s.frameDefine id name v)
          else
            match f.enclosing with
            | some e => envAssignAux s fuel e name v
            | none => none

/-- `Environment.assign`: write the nearest existing binding; `none` is the
`Undefined variable` error. -/
def InterpState.envAssign (s : InterpState) (id : Nat) (name : String)
    (v : Value) : Option InterpState :=
  envAssignAux s (s.frames.length + 1) id name v

/-- The globals scope that `NewInterpreter` pre-populates with the native
callables, in registration order. -/
def globalsFrame : EnvFrame :=
  { values :=
      [ ("clock", .vnative "clock"), ("print", .vnative "print")
      , ("string", .vnative "string"), ("len", .vnative "len")
      , ("map", .vnative "map"), ("filter", .vnative "filter")
      , ("reduce", .vnative "reduce"), ("hasKey", .vnative "hasKey")
      , ("size", .vnative "size"), ("values", .vnative "values")
      , ("keys", .vnative "keys") ]
  , enclosing := none }

def InterpState.initial (locals : List (Nat × Nat)) : InterpState :=
  { frames := [globalsFrame], env := 0, globalsId := 0, locals := locals
  , functions := [], output := [], lookups := [] }

/-- `Arity` of the native callables (natives.go). -/
def nativeArity : String → Nat
  | "print" => 1 | "string" => 1 | "len" => 1 | "map" => 2
  | "filter" => 2 | "reduce" => 3 | "hasKey" => 2 | "size" => 1
  | "values" => 1 | "keys" => 1
  | _ => 0

/-- `Arity` through the `LoxCallable` interface; `none` for values that do
not implement it. -/
def callableArity (s : InterpState) : Value → Option Nat
  | .vfun fid => (s.functions.get? fid).map (fun f => f.1.params.length)
  | .vnative n => some (nativeArity n)
  | _ => none

/-- `lookupVariable` (interpreter.go): a resolver-recorded distance reads
directly at that depth — the source comments that it is `safe to not check
for an error as the resolver should have done its job`, and a missing Go map
key silently yields the zero value nil — otherwise the globals chain is
searched.  The instrumentation event records the chain length and whether the
ancestor frame really binds the name. -/
def lookupVariable (s : InterpState) (id : Nat) (name : String) :
    Except Esc Value × InterpState :=
  match s.locals.lookup id with
  | some distance =>
      let anc := ancestorId s distance s.env
      let hasBinding :=
        match anc with
        | some aid =>
            (match s.frames.get? aid with
             | some f => (f.values.lookup name).isSome
             | none => false)
        | none => false
      let ev : LookupEvent :=
        { exprId := id, name := name, distance := distance
        , chainLen := s.chainLen s.env, ancestorHasBinding := hasBinding }
      let s1 := { s with lookups := s.lookups ++ [ev] }
      match anc with
      | none => (.error (.crash "nil environment in ancestor walk"), s1)
      | some aid =>
          match s1.frames.get? aid with
          | none => (.error (.crash "missing frame"), s1)
          | some f => (.ok ((f.values.lookup name).getD .vnil), s1)
  | none =>
      match s.envGet s.globalsId name with
      | some v => (.ok v, s)
      | none => (.error (.rerr ("Undefined variable " ++ name)), s)

/-- `assignAt` through a resolver-recorded distance, with the same
instrumentation; the Go map write creates the binding if it was absent. -/
def assignAtState (s : InterpState) (id : Nat) (distance : Nat) (name : String)
    (v : Value) : Except Esc Unit × InterpState :=
  let anc := ancestorId s distance s.env
  let hasBinding :=
    match anc with
    | some aid =>
        (match s.frames.get? aid with
         | some f => (f.values.lookup name).isSome
         | none => false)
    | none => false
  let ev : LookupEvent :=
    { exprId := id, name := name, distance := distance
    , chainLen := s.chainLen s.env, ancestorHasBinding := hasBinding }
  let s1 := { s with lookups := s.lookups ++ [ev] }
  match anc with
  | none => (.error (.crash "nil environment in ancestor walk"), s1)
  | some aid => (.ok (), s1.frameDefine aid name v)

/-- Positional parameter binding of `LoxFunction.Call`; `none` stands for the
index-out-of-range panic `arguments[i]` would raise (the callers always check
arity first). -/
def bindParams : List String → List Value → Option (List (String × Value))
  | [], _ => some []
  | _ :: _, [] => none
  | p :: ps, a :: as_ => (bindParams ps as_).map (fun rest => (p, a) :: rest)

set_option maxHeartbeats 2000000 in
mutual

/-- Expression evaluation, `Interpreter.evaluate` dispatching the expression
visitors.  Array and map values travel by value in the model (the reference
aliasing of Go slices and maps is not modelled; no property stated below
depends on it, and `VisitIndexedAssignmentExpression` therefore performs all
of its evaluations and checks but its write to the shared backing store is
not observable). -/
def evalExpr : Nat → InterpState → Expr → Except Esc Value × InterpState
  | 0, s, _ => (.error .outOfFuel, s)
  | fuel + 1, s, e =>
    match e with
    | .literal v => (.ok v, s)
    | .variableExpr id name => lookupVariable s id name
    | .assign id name value =>
        match evalExpr fuel s value with
        | (.error esc, s1) => (.error esc, s1)
        | (.ok v, s1) =>
            match s1.locals.lookup id with
            | some distance =>
                match assignAtState s1 id distance name v with
                | (.ok _, s2) => (.ok v, s2)
                | (.error esc, s2) => (.error esc, s2)
            | none =>
                -- i.globals.assign(...): the returned error is discarded
                let s2 :=
                  match s1.envAssign s1.globalsId name v with
                  | some st => st
                  | none => s1
                (.ok v, s2)
    | .grouping g => evalExpr fuel s g
    | .sequence items =>
        -- var result any = nil; evaluate all items but only return final one
        evalSequenceItems fuel s items .vnil
    | .arrayLit items =>
        match evalExprList fuel s items with
        | (.ok vs, s1) => (.ok (.varr vs), s1)
        | (.error esc, s1) => (.error esc, s1)
    | .mapLit entries => evalMapEntries fuel s entries []
    | .indexExpr o l ri =>
        match evalExpr fuel s o with
        | (.error esc, s1) => (.error esc, s1)
        | (.ok ov, s1) =>
            match ov with
            | .varr _ | .vstr _ =>
                -- arrayIndexExpression re-evaluates the object and indices
                (match evalExpr fuel s1 o with
                 | (.error esc, s2) => (.error esc, s2)
                 | (.ok ov2, s2) =>
                     match evalExpr fuel s2 l with
                     | (.error esc, s3) => (.error esc, s3)
                     | (.ok lv, s3) =>
                         match ri with
                         | none =>
                             (match arrayIndexExpression ov2 lv none with
                              | .ok v => (.ok v, s3)
                              | .error msg => (.error (.rerr msg), s3))
                         | some re =>
                             match evalExpr fuel s3 re with
                             | (.error esc, s4) => (.error esc, s4)
                             | (.ok rv, s4) =>
                                 match arrayIndexExpression ov2 lv (some rv) with
                                 | .ok v => (.ok v, s4)
                                 | .error msg => (.error (.rerr msg), s4))
            | .vmap _ =>
                -- mapIndexExpression re-evaluates the object, then the key
                (match evalExpr fuel s1 o with
                 | (.error esc, s2) => (.error esc, s2)
                 | (.ok ov2, s2) =>
                     match ov2.asMap with
                     | none => (.error (.crash "interface conversion to LoxMap"), s2)
                     | some m =>
                         match evalExpr fuel s2 l with
                         | (.error esc, s3) => (.error esc, s3)
                         | (.ok kv, s3) =>
                             match mapIndexExpression m kv ri.isSome with
                             | .ok v => (.ok v, s3)
                             | .error msg => (.error (.rerr msg), s3))
            | _ => (.error (.rerr "Can only index arrays, strings and maps"), s1)
    | .indexedAssign o l v =>
        match evalExpr fuel s o with
        | (.error esc, s1) => (.error esc, s1)
        | (.ok ov, s1) =>
            match ov with
            | .varr _ =>
                -- arrayIndexedAssignmentExpression
                (match evalExpr fuel s1 o with
                 | (.error esc, s2) => (.error esc, s2)
                 | (.ok ov2, s2) =>
                     let array := ov2.asArr.getD []
                     match evalExpr fuel s2 l with
                     | (.error esc, s3) => (.error esc, s3)
                     | (.ok iv, s3) =>
                         match iv.asNum with
                         | none => (.error (.rerr "Index must be integer"), s3)
                         | some q =>
                             if !isInteger q then
                               (.error (.rerr "Index must be integer"), s3)
                             else if q.num < 0 ∨ q.num ≥ (array.length : Int) then
                               (.error (.rerr "Index is out of range for array"), s3)
                             else
                               match evalExpr fuel s3 v with
                               | (.error esc, s4) => (.error esc, s4)
                               | (.ok vv, s4) => (.ok vv, s4))
            | .vmap _ =>
                -- mapIndexedAssignmentExpression
                (match evalExpr fuel s1 o with
                 | (.error esc, s2) => (.error esc, s2)
                 | (.ok _, s2) =>
                     match evalExpr fuel s2 l with
                     | (.error esc, s3) => (.error esc, s3)
                     | (.ok kv, s3) =>
                         match kv.asStr with
                         | none => (.error (.rerr "map keys must be strings"), s3)
                         | some _ =>
                             match evalExpr fuel s3 v with
                             | (.error esc, s4) => (.error esc, s4)
                             | (.ok vv, s4) => (.ok vv, s4))
            | _ => (.error (.rerr "Can only assign to arrays and maps"), s1)
    | .unary op u =>
        match evalExpr fuel s u with
        | (.error esc, s1) => (.error esc, s1)
        | (.ok rv, s1) =>
            match visitUnaryExpression op rv with
            | .ok v => (.ok v, s1)
            | .error msg => (.error (.rerr msg), s1)
    | .binary op le re =>
        match evalExpr fuel s le with
        | (.error esc, s1) => (.error esc, s1)
        | (.ok lv, s1) =>
            match evalExpr fuel s1 re with
            | (.error esc, s2) => (.error esc, s2)
            | (.ok rv, s2) =>
                match visitBinaryExpression op lv rv with
                | .ok v => (.ok v, s2)
                | .error msg =>
                    -- comparing two slices or two maps is a raw Go panic,
                    -- every other failure is a lox runtime error
                    if msg = "runtime error: comparing uncomparable type" then
                      (.error (.crash msg), s2)
                    else (.error (.rerr msg), s2)
    | .logical op le re =>
        match evalExpr fuel s le with
        | (.error esc, s1) => (.error esc, s1)
        | (.ok lv, s1) =>
            if op = .OR then
              if isTruthy lv then (.ok lv, s1) else evalExpr fuel s1 re
            else
              if !(isTruthy lv) then (.ok lv, s1) else evalExpr fuel s1 re
    | .ternary c t f =>
        match evalExpr fuel s c with
        | (.error esc, s1) => (.error esc, s1)
        | (.ok cv, s1) =>
            if isTruthy cv then evalExpr fuel s1 t else evalExpr fuel s1 f
    | .call callee args =>
        match evalExpr fuel s callee with
        | (.error esc, s1) => (.error esc, s1)
        | (.ok cv, s1) =>
            match evalExprList fuel s1 args with
            | (.error esc, s2) => (.error esc, s2)
            | (.ok avs, s2) =>
                match callableArity s2 cv with
                | none =>
                    (.error (.rerr "Can only call functions and classes"), s2)
                | some ar =>
                    if avs.length ≠ ar then
                      (.error (.rerr ("Expected " ++ toString ar ++
                        " arguments but got " ++ toString avs.length)), s2)
                    else callCallable fuel s2 cv avs
    | .lambda fn =>
        let fid := s.functions.length
        (.ok (.vfun fid), { s with functions := s.functions ++ [(fn, s.env)] })
termination_by structural fuel => fuel
/-- Left-to-right evaluation of an expression list (call arguments, array
literals). -/

def evalExprList : Nat → InterpState → List Expr →
    Except Esc (List Value) × InterpState
  | 0, s, _ => (.error .outOfFuel, s)
  | _ + 1, s, [] => (.ok [], s)
  | fuel + 1, s, e :: rest =>
      match evalExpr fuel s e with
      | (.error esc, s1) => (.error esc, s1)
      | (.ok v, s1) =>
          match evalExprList fuel s1 rest with
          | (.error esc, s2) => (.error esc, s2)
          | (.ok vs, s2) => (.ok (v :: vs), s2)
termination_by structural fuel => fuel
/-- `VisitSequenceExpression`: evaluate every item, keep the last result in
`result`, whose zero value is nil — an empty sequence yields nil. -/

def evalSequenceItems : Nat → InterpState → List Expr → Value →
    Except Esc Value × InterpState
  | 0, s, _, _ => (.error .outOfFuel, s)
  | _ + 1, s, [], result => (.ok result, s)
  | fuel + 1, s, e :: rest, _ =>
      match evalExpr fuel s e with
      | (.error esc, s1) => (.error esc, s1)
      | (.ok v, s1) => evalSequenceItems fuel s1 rest v
termination_by structural fuel => fuel
/-- `VisitMapExpression`: keys must evaluate to strings; each pair is stored
at the hash of its key, later duplicates overwriting earlier ones. -/

def evalMapEntries : Nat → InterpState → List (Expr × Expr) → LoxMap →
    Except Esc Value × InterpState
  | 0, s, _, _ => (.error .outOfFuel, s)
  | _ + 1, s, [], m => (.ok (.vmap m), s)
  | fuel + 1, s, (ke, ve) :: rest, m =>
      match evalExpr fuel s ke with
      | (.error esc, s1) => (.error esc, s1)
      | (.ok kv, s1) =>
          match kv.asStr with
          | none => (.error (.rerr "map keys must be strings"), s1)
          | some key =>
              match evalExpr fuel s1 ve with
              | (.error esc, s2) => (.error esc, s2)
              | (.ok v, s2) =>
                  evalMapEntries fuel s2 rest (mapSet m (Hash key) key v)
termination_by structural fuel => fuel
/-- Statement execution, `Interpreter.execute` dispatching the statement
visitors. -/

def execStmt : Nat → InterpState → Stmt → Except Esc Unit × InterpState
  | 0, s, _ => (.error .outOfFuel, s)
  | fuel + 1, s, stmt =>
    match stmt with
    | .exprStmt e =>
        match evalExpr fuel s e with
        | (.ok _, s1) => (.ok (), s1)
        | (.error esc, s1) => (.error esc, s1)
    | .varStmt name init =>
        match (match init with
               | some e => evalExpr fuel s e
               | none => (.ok .vnil, s)) with
        | (.error esc, s1) => (.error esc, s1)
        | (.ok v, s1) => (.ok (), s1.frameDefine s1.env name v)
    | .block stmts =>
        let (newEnv, s1) := s.alloc (some s.env)
        executeBlock fuel s1 stmts newEnv
    | .ifStmt cond cons alt =>
        match evalExpr fuel s cond with
        | (.error esc, s1) => (.error esc, s1)
        | (.ok cv, s1) =>
            if isTruthy cv then execStmt fuel s1 cons
            else
              match alt with
              | some a => execStmt fuel s1 a
              | none => (.ok (), s1)
    | .loop cond body inc => loopIter fuel s cond body inc s.env
    | .forEach varName arr body =>
        -- VisitForEachStatement; its defer catches only LoxBreak
        (match evalExpr fuel s arr with
         | (.error .brk, s1) => (.ok (), { s1 with env := s.env })
         | (.error esc, s1) => (.error esc, s1)
         | (.ok av, s1) =>
             match av.asArr with
             | none =>
                 (.error (.rerr "for-of loops are only valid on arrays"), s1)
             | some array =>
                 if array.length = 0 then (.ok (), s1)
                 else
                   let outer := s.env
                   let (newEnv, s2) := s1.alloc (some s1.env)
                   let s3 :=
                     ({ s2 with env := newEnv }).frameDefine newEnv varName
                       (array.getD 0 .vnil)
                   forEachIter fuel s3 varName array 0 body outer)
    | .funcStmt fn =>
        let fid := s.functions.length
        let s1 := { s with functions := s.functions ++ [(fn, s.env)] }
        match fn.name with
        | some n => (.ok (), s1.frameDefine s1.env n (.vfun fid))
        | none => (.ok (), s1)
    | .ret value =>
        match (match value with
               | some e => evalExpr fuel s e
               | none => (.ok .vnil, s)) with
        | (.error esc, s1) => (.error esc, s1)
        | (.ok v, s1) => (.error (.ret v), s1)
    | .breakStmt => (.error .brk, s)
    | .continueStmt => (.error .cont, s)
termination_by structural fuel => fuel
/-- The statement loop of `executeBlock` (the environment switch lives in
`executeBlock`). -/

def execStmts : Nat → InterpState → List Stmt → Except Esc Unit × InterpState
  | 0, s, _ => (.error .outOfFuel, s)
  | _ + 1, s, [] => (.ok (), s)
  | fuel + 1, s, st :: rest =>
      match execStmt fuel s st with
      | (.error esc, s1) => (.error esc, s1)
      | (.ok _, s1) => execStmts fuel s1 rest
termination_by structural fuel => fuel
/-- `executeBlock`: run the statements in the given environment and restore
the previous one; a panic unwinds without restoring (the recover handlers of
loops and calls restore it themselves). -/

def executeBlock : Nat → InterpState → List Stmt → Nat →
    Except Esc Unit × InterpState
  | 0, s, _, _ => (.error .outOfFuel, s)
  | fuel + 1, s, stmts, environment =>
      let previous := s.env
      match execStmts fuel { s with env := environment } stmts with
      | (.ok _, s1) => (.ok (), { s1 with env := previous })
      | (.error esc, s1) => (.error esc, s1)
termination_by structural fuel => fuel
/-- The `for isTruthy(i.evaluate(s.Condition()))` loop of
`VisitLoopStatement`; its defer catches a `LoxBreak` raised anywhere in the
loop and restores the environment saved at loop entry (`env0`). -/

def loopIter : Nat → InterpState → Expr → Stmt → Option Expr → Nat →
    Except Esc Unit × InterpState
  | 0, s, _, _, _, _ => (.error .outOfFuel, s)
  | fuel + 1, s, cond, body, inc, env0 =>
      match evalExpr fuel s cond with
      | (.error .brk, s1) => (.ok (), { s1 with env := env0 })
      | (.error esc, s1) => (.error esc, s1)
      | (.ok cv, s1) =>
          if !(isTruthy cv) then (.ok (), s1)
          else
            match executeLoopBody fuel s1 body inc with
            | (.ok _, s2) => loopIter fuel s2 cond body inc env0
            | (.error .brk, s2) => (.ok (), { s2 with env := env0 })
            | (.error esc, s2) => (.error esc, s2)
termination_by structural fuel => fuel
/-- `executeLoopBody`: run one iteration then the increment; its defer
catches a `LoxContinue` raised anywhere inside — also from the increment
itself — restores the environment saved at entry and makes sure the
increment still runs. -/

def executeLoopBody : Nat → InterpState → Stmt → Option Expr →
    Except Esc Unit × InterpState
  | 0, s, _, _ => (.error .outOfFuel, s)
  | fuel + 1, s, body, inc =>
      let env0 := s.env
      match execStmt fuel s body with
      | (.ok _, s1) =>
          (match inc with
           | none => (.ok (), s1)
           | some i =>
               match evalExpr fuel s1 i with
               | (.ok _, s2) => (.ok (), s2)
               | (.error .cont, s2) =>
                   -- the deferred recover catches this continue as well
                   (match inc with
                    | none => (.ok (), { s2 with env := env0 })
                    | some i2 =>
                        match evalExpr fuel { s2 with env := env0 } i2 with
                        | (.ok _, s3) => (.ok (), s3)
                        | (.error esc, s3) => (.error esc, s3))
               | (.error esc, s2) => (.error esc, s2))
      | (.error .cont, s1) =>
          (match inc with
           | none => (.ok (), { s1 with env := env0 })
           | some i =>
               match evalExpr fuel { s1 with env := env0 } i with
               | (.ok _, s2) => (.ok (), s2)
               | (.error esc, s2) => (.error esc, s2))
      | (.error esc, s1) => (.error esc, s1)
termination_by structural fuel => fuel
/-- The iteration loop of `VisitForEachStatement`: run the body, then
reassign the loop variable to the next element; on normal exhaustion or on a
caught break the outer environment is restored. -/

def forEachIter : Nat → InterpState → String → List Value → Nat → Stmt → Nat →
    Except Esc Unit × InterpState
  | 0, s, _, _, _, _, _ => (.error .outOfFuel, s)
  | fuel + 1, s, varName, array, pos, body, outer =>
      match executeLoopBody fuel s body none with
      | (.ok _, s1) =>
          let pos1 := pos + 1
          if pos1 < array.length then
            -- i.environment.assign(...); the returned error is discarded
            let s2 :=
              match s1.envAssign s1.env varName (array.getD pos1 .vnil) with
              | some st => st
              | none => s1
            forEachIter fuel s2 varName array pos1 body outer
          else (.ok (), { s1 with env := outer })
      | (.error .brk, s1) => (.ok (), { s1 with env := outer })
      | (.error esc, s1) => (.error esc, s1)
termination_by structural fuel => fuel
/-- `LoxFunction.Call` and the native `Call`s behind the `LoxCallable`
interface (callable.go, natives.go).  The function case allocates the frame
enclosing the closure, binds the parameters, executes the body, and its defer
turns a `LoxReturn` panic into the return value while restoring the caller
environment; with no return it yields nil. -/

def callCallable : Nat → InterpState → Value → List Value →
    Except Esc Value × InterpState
  | 0, s, _, _ => (.error .outOfFuel, s)
  | fuel + 1, s, callee, args =>
      match callee with
      | .vfun fid =>
          (match s.functions.get? fid with
           | none => (.error (.crash "missing function"), s)
           | some (decl, closure) =>
               let enclosingEnvironment := s.env
               let (newEnv, s1) := s.alloc (some closure)
               match bindParams decl.params args with
               | none => (.error (.crash "index out of range in arguments"), s1)
               | some bindings =>
                   let s2 := bindings.foldl
                     (fun st pa => st.frameDefine newEnv pa.1 pa.2) s1
                   match executeBlock fuel s2 decl.body newEnv with
                   | (.ok _, s3) => (.ok .vnil, s3)
                   | (.error (.ret v), s3) =>
                       (.ok v, { s3 with env := enclosingEnvironment })
                   | (.error esc, s3) => (.error esc, s3))
      | .vnative name => callNative fuel s name args
      | _ => (.error (.rerr "Can only call functions and classes"), s)
termination_by structural fuel => fuel
/-- The native callables (natives.go).  `clock` reads the wall clock in the
source; the model has no clock and fixes its result at 0 (no property stated
below reads it).  Errors returned by a native become the runtime error the
call site panics with. -/

def callNative : Nat → InterpState → String → List Value →
    Except Esc Value × InterpState
  | 0, s, _, _ => (.error .outOfFuel, s)
  | fuel + 1, s, name, args =>
      match name, args with
      | "clock", [] => (.ok (.vnum 0), s)
      | "print", [a0] =>
          (.ok .vnil, { s with output := s.output ++ [PrintRepresentation a0] })
      | "string", [a0] =>
          (match StringCall a0 with
           | .ok v => (.ok v, s)
           | .error msg => (.error (.rerr msg), s))
      | "len", [a0] =>
          (match LengthCall a0 with
           | .ok v => (.ok v, s)
           | .error msg => (.error (.rerr msg), s))
      | "size", [a0] =>
          (match SizeCall a0 with
           | .ok v => (.ok v, s)
           | .error msg => (.error (.rerr msg), s))
      | "hasKey", [a0, a1] =>
          (match HasKeyCall a0 a1 with
           | .ok v => (.ok v, s)
           | .error msg => (.error (.rerr msg), s))
      | "values", [a0] =>
          (match ValuesCall a0 with
           | .ok v => (.ok v, s)
           | .error msg => (.error (.rerr msg), s))
      | "keys", [a0] =>
          (match KeysCall a0 with
           | .ok v => (.ok v, s)
           | .error msg => (.error (.rerr msg), s))
      | "map", [a0, a1] =>
          (match a0.asArr with
           | none => (.error (.rerr "first argument of map must be an array"), s)
           | some array =>
               if callableArity s a1 ≠ some 1 then
                 (.error (.rerr
                   "second argument of map must be an function taking a single parameter"), s)
               else mapNativeLoop fuel s a1 array [])
      | "filter", [a0, a1] =>
          (match a0.asArr with
           | none => (.error (.rerr "first argument of map must be an array"), s)
           | some array =>
               if callableArity s a1 ≠ some 1 then
                 (.error (.rerr
                   "second argument of map must be an function taking a single parameter"), s)
               else filterNativeLoop fuel s a1 array [])
      | "reduce", [a0, a1, a2] =>
          (match a1.asArr with
           | none => (.error (.rerr "second argument of reduce must be an array"), s)
           | some array =>
               if callableArity s a2 ≠ some 2 then
                 (.error (.rerr
                   "third argument of reduce must be an function taking two parameters - the accumulator and the current element"), s)
               else reduceNativeLoop fuel s a2 array a0)
      | _, _ => (.error (.crash "native called with wrong arguments"), s)
termination_by structural fuel => fuel

def mapNativeLoop : Nat → InterpState → Value → List Value → List Value →
    Except Esc Value × InterpState
  | 0, s, _, _, _ => (.error .outOfFuel, s)
  | _ + 1, s, _, [], acc => (.ok (.varr acc.reverse), s)
  | fuel + 1, s, fn, el :: rest, acc =>
      match callCallable fuel s fn [el] with
      | (.error esc, s1) => (.error esc, s1)
      | (.ok v, s1) => mapNativeLoop fuel s1 fn rest (v :: acc)
termination_by structural fuel => fuel

def filterNativeLoop : Nat → InterpState → Value → List Value → List Value →
    Except Esc Value × InterpState
  | 0, s, _, _, _ => (.error .outOfFuel, s)
  | _ + 1, s, _, [], acc => (.ok (.varr acc.reverse), s)
  | fuel + 1, s, fn, el :: rest, acc =>
      match callCallable fuel s fn [el] with
      | (.error esc, s1) => (.error esc, s1)
      | (.ok v, s1) =>
          filterNativeLoop fuel s1 fn rest (if isTruthy v then el :: acc else acc)
termination_by structural fuel => fuel

def reduceNativeLoop : Nat → InterpState → Value → List Value → Value →
    Except Esc Value × InterpState
  | 0, s, _, _, _ => (.error .outOfFuel, s)
  | _ + 1, s, _, [], acc => (.ok acc, s)
  | fuel + 1, s, fn, el :: rest, acc =>
      match callCallable fuel s fn [acc, el] with
      | (.error esc, s1) => (.error esc, s1)
      | (.ok v, s1) => reduceNativeLoop fuel s1 fn rest v
termination_by structural fuel => fuel
/-- `Interpret`: run the statements in order; if the final statement is an
expression statement its value is returned; any panic is recovered at this
level and reported as failure (`none`). -/

def interpretStmts : Nat → InterpState → List Stmt →
    Option Value × InterpState
  | 0, s, _ => (none, s)
  | _ + 1, s, [] => (none, s)
  | fuel + 1, s, [st] =>
      (match st with
       | .exprStmt e =>
           (match evalExpr fuel s e with
            | (.ok v, s1) => (some v, s1)
            | (.error _, s1) => (none, s1))
       | _ =>
           match execStmt fuel s st with
           | (.ok _, s1) => (none, s1)
           | (.error _, s1) => (none, s1))
  | fuel + 1, s, st :: rest =>
      match execStmt fuel s st with
      | (.ok _, s1) => interpretStmts fuel s1 rest
      | (.error _, s1) => (none, s1)
termination_by structural fuel => fuel

end

/-- `Interpret` over a fresh interpreter whose globals hold the natives and
whose depth map is the resolver output. -/
def Interpret (fuel : Nat) (locals : List (Nat × Nat)) (program : List Stmt) :
    Option Value × InterpState :=
  interpretStmts fuel (InterpState.initial locals) program

/-- The operand combinations for which the specification says binary `+`
succeeds (written from the spec sentence for claim C5, to be compared with
`visitBinaryExpression`): two numbers, two arrays, two strings, or one string
with a number or boolean. -/
def plusCompatible (l r : Value) : Bool :=
  match l, r with
  | .vnum _, .vnum _ => true
  | .varr _, .varr _ => true
  | .vstr _, .vstr _ => true
  | .vstr _, .vnum _ => true
  | .vstr _, .vbool _ => true
  | .vnum _, .vstr _ => true
  | .vbool _, .vstr _ => true
  | _, _ => false

/-! ## Concrete programs used by the claim theorems -/

/-- The program `{ var a = (() => a)() }`: inside a block, a variable whose
initializer calls a lambda that reads the variable being initialized.  The
variable node of `a` inside the lambda body carries id 1. -/
def closureInInitializerProgram : List Stmt :=
  [.block [.varStmt "a" (some (.call
    (.grouping (.lambda (.mk none []
      [.ret (some (.variableExpr 1 "a"))] .NOT_METHOD)))
    []))]]

/-- The program `() == nil`. -/
def emptySeqEqNilProgram : List Stmt :=
  [.exprStmt (.binary .EQUAL_EQUAL (.sequence []) (.literal .vnil))]

/-- `while (true) { while (true) {} break }`: a break in the outer loop body
after a nested inner loop. -/
def nestedBreakProgram : List Stmt :=
  [.loop (.literal (.vbool true))
    (.block [.loop (.literal (.vbool true)) (.block []) none, .breakStmt])
    none]

/-- The same shape with `continue` instead of `break`. -/
def nestedContinueProgram : List Stmt :=
  [.loop (.literal (.vbool true))
    (.block [.loop (.literal (.vbool true)) (.block []) none, .continueStmt])
    none]

/-- `while (true) { break }`: the same break without the nested loop. -/
def breakOnlyProgram : List Stmt :=
  [.loop (.literal (.vbool true)) (.block [.breakStmt]) none]

/-! ## Theorems -/

/-! ### Helper lemmas -/

/-- The FNV-1a state stays below 2^64. -/
theorem fnv64a_lt (bytes : List Nat) : fnv64a bytes < 2 ^ 64 := by
  have aux : ∀ (bs : List Nat) (acc : Nat), acc < 2 ^ 64 →
      bs.foldl (fun h b => ((h ^^^ b) * 1099511628211) % 2 ^ 64) acc < 2 ^ 64 := by
    intro bs
    induction bs with
    | nil => intro acc hacc; simpa using hacc
    | cons b rest ih =>
        intro acc hacc
        exact ih _ (Nat.mod_lt _ (by norm_num))
  exact aux _ _ (by norm_num)

/-- There are infinitely many strings but only 2^64 hash values, so `Hash`
collides somewhere. -/
theorem hash_collision : ∃ s1 s2 : String, s1 ≠ s2 ∧ Hash s1 = Hash s2 := by
  classical
  let f : String → Fin (2 ^ 64) :=
    fun s => ⟨fnv64a (s.data.flatMap utf8Bytes), fnv64a_lt _⟩
  obtain ⟨s1, s2, hne, heq⟩ := Finite.exists_ne_map_eq_of_infinite f
  refine ⟨s1, s2, hne, ?_⟩
  have : fnv64a (s1.data.flatMap utf8Bytes) = fnv64a (s2.data.flatMap utf8Bytes) := by
    simpa [f, Fin.ext_iff] using heq
  simp [Hash, this]

/-- A Go map read succeeds exactly when some entry carries the key hash. -/
theorem mapGet_isSome_iff (m : LoxMap) (h : Int) :
    (mapGet m h).isSome = true ↔ ∃ e ∈ m, e.1 = h := by
  induction m with
  | nil => simp [mapGet]
  | cons hd tl ih =>
      obtain ⟨h0, k0, v0⟩ := hd
      by_cases he : h0 = h
      · subst he; simp [mapGet]
      · simp [mapGet, he, ih]

/-- A successful Go map read returns a stored entry. -/
theorem mapGet_eq_some (m : LoxMap) (h : Int) (k : String) (v : Value)
    (hget : mapGet m h = some (k, v)) : (h, k, v) ∈ m := by
  induction m with
  | nil => simp [mapGet] at hget
  | cons hd tl ih =>
      obtain ⟨h0, k0, v0⟩ := hd
      by_cases he : h0 = h
      · subst he
        simp [mapGet] at hget
        simp [hget]
      · simp [mapGet, he] at hget
        exact List.mem_cons_of_mem _ (ih hget)

theorem exceptBind_ok {ε α β : Type} (a : α) (f : α → Except ε β) :
    bind (Except.ok a : Except ε α) f = f a := rfl

theorem exceptBind_error {ε α β : Type} (e : ε) (f : α → Except ε β) :
    bind (Except.error e : Except ε α) f = (.error e : Except ε β) := rfl

theorem exceptMap_ok {ε α β : Type} (f : α → β) (a : α) :
    Except.map f (.ok a : Except ε α) = .ok (f a) := rfl

theorem exceptMap_error {ε α β : Type} (f : α → β) (e : ε) :
    Except.map f (.error e : Except ε α) = .error e := rfl

/-- Closed form of the array slice path of `arrayIndexExpression` for integer
indices. -/
theorem arrayIndex_slice_closed (v : List Value) (lo hi : Int) :
    arrayIndexExpression (.varr v) (.vnum (lo:ℚ)) (some (.vnum (hi:ℚ))) =
      (if lo < 0 ∨ lo ≥ (v.length:Int) ∨ hi < 0 ∨ hi > (v.length:Int) then
        .error "Index is out of range"
      else if lo > hi then
        .error "Right index of slice must be greater or equal to left index"
      else .ok (.varr ((v.drop lo.toNat).take (hi.toNat - lo.toNat)))) := by
  simp [arrayIndexExpression, Value.asNum, isInteger, Rat.den_intCast, Rat.num_intCast]

/-- Closed form of the string slice path of `arrayIndexExpression` for integer
indices. -/
theorem arrayIndex_slice_closed_str (cs : List Char) (lo hi : Int) :
    arrayIndexExpression (.vstr (String.mk cs)) (.vnum (lo:ℚ)) (some (.vnum (hi:ℚ))) =
      (if lo < 0 ∨ lo ≥ (cs.length:Int) ∨ hi < 0 ∨ hi > (cs.length:Int) then
        .error "Index is out of range"
      else if lo > hi then
        .error "Right index of slice must be greater or equal to left index"
      else .ok (.vstr (String.mk ((cs.drop lo.toNat).take (hi.toNat - lo.toNat))))) := by
  simp [arrayIndexExpression, Value.asNum, isInteger, Rat.den_intCast, Rat.num_intCast,
    String.length]

/-! ### Claim theorems -/

/-- C2 (counterexample): the three-way equivalence fails at explicit inputs.
First, for the map `{"a": nil}` the probe `hasKey` answers true and the key
is an element of `keys`, yet indexing yields nil — indistinguishable from the
absent-default.  Second, because the table is keyed only by the 64-bit FNV-1a
hash, there exist (by counting) two distinct strings with equal hash, giving a
map and a key for which `hasKey` answers true although the key is not in
`keys`. -/
theorem c2_haskey_counterexample :
    (HasKeyCall (.vmap [(Hash "a", "a", .vnil)]) (.vstr "a") = .ok (.vbool true) ∧
     "a" ∈ mapKeysList [(Hash "a", "a", Value.vnil)] ∧
     mapIndexExpression [(Hash "a", "a", .vnil)] (.vstr "a") false = .ok .vnil) ∧
    (∃ (m : LoxMap) (k : String),
      (∀ e ∈ m, e.1 = Hash e.2.1) ∧
      HasKeyCall (.vmap m) (.vstr k) = .ok (.vbool true) ∧
      k ∉ mapKeysList m) := by
  refine ⟨⟨rfl, by simp [mapKeysList], rfl⟩, ?_⟩
  obtain ⟨s1, s2, hne, heq⟩ := hash_collision
  refine ⟨[(Hash s1, s1, .vnum 0)], s2, ?_, ?_, ?_⟩
  · intro e he
    simp only [List.mem_singleton] at he
    subst he; rfl
  · simp [HasKeyCall, Value.asMap, Value.asStr, mapGet, heq]
  · simp only [mapKeysList, List.map, List.mem_singleton]
    intro hmem
    exact hne hmem.symm

/-- C2 (amended): over maps as the evaluator builds them — every entry stored
at the FNV-1a hash of its own key — and for a key that collides with no
distinct stored key, `hasKey(M, k)` answers true exactly when `k` is an
element of `keys(M)`; and when additionally no stored value is nil, exactly
when the index expression `M[k]` yields something other than the
absent-default nil. -/
theorem c2_haskey_keys_index (m : LoxMap) (k : String)
    (hcons : ∀ e ∈ m, e.1 = Hash e.2.1)
    (hnocol : ∀ e ∈ m, Hash e.2.1 = Hash k → e.2.1 = k) :
    (HasKeyCall (.vmap m) (.vstr k) = .ok (.vbool true) ↔ k ∈ mapKeysList m) ∧
    ((∀ e ∈ m, e.2.2 ≠ Value.vnil) →
      (HasKeyCall (.vmap m) (.vstr k) = .ok (.vbool true) ↔
        mapIndexExpression m (.vstr k) false ≠ .ok Value.vnil)) := by
  have hkey : HasKeyCall (.vmap m) (.vstr k) =
      .ok (.vbool ((mapGet m (Hash k)).isSome)) := rfl
  have hiff : HasKeyCall (.vmap m) (.vstr k) = .ok (.vbool true) ↔
      (mapGet m (Hash k)).isSome = true := by
    rw [hkey]; simp
  constructor
  · rw [hiff]
    constructor
    · intro hsome
      obtain ⟨⟨k1, v1⟩, hget⟩ := Option.isSome_iff_exists.mp hsome
      have hmem := mapGet_eq_some m (Hash k) k1 v1 hget
      have hk1 : k1 = k := by
        have hc := hcons _ hmem
        exact hnocol _ hmem (by simpa using hc.symm)
      subst hk1
      exact List.mem_map.mpr ⟨_, hmem, rfl⟩
    · intro hk
      obtain ⟨e, hmem, hek⟩ := List.mem_map.mp hk
      refine (mapGet_isSome_iff m (Hash k)).mpr ⟨e, hmem, ?_⟩
      rw [hcons _ hmem, hek]
  · intro hnn
    rw [hiff]
    constructor
    · intro hsome hcontra
      obtain ⟨⟨k1, v1⟩, hget⟩ := Option.isSome_iff_exists.mp hsome
      have hmem := mapGet_eq_some m (Hash k) k1 v1 hget
      have hv1 : v1 ≠ Value.vnil := hnn _ hmem
      have : mapIndexExpression m (.vstr k) false = .ok v1 := by
        simp [mapIndexExpression, Value.asStr, hget]
      rw [this] at hcontra
      exact hv1 (by simpa using hcontra)
    · intro hne2
      by_contra hnone
      have hgnone : mapGet m (Hash k) = none := by
        cases hg : mapGet m (Hash k) with
        | none => rfl
        | some p => rw [hg] at hnone; simp at hnone
      have : mapIndexExpression m (.vstr k) false = .ok Value.vnil := by
        simp [mapIndexExpression, Value.asStr, hgnone]
      exact hne2 this

/-- C2 (witness): the amended equivalence at the concrete map `{"a": 1}`. -/
theorem c2_haskey_keys_index_witness :
    (HasKeyCall (.vmap [(Hash "a", "a", .vnum 1)]) (.vstr "a") = .ok (.vbool true) ↔
      "a" ∈ mapKeysList [(Hash "a", "a", Value.vnum 1)]) ∧
    (HasKeyCall (.vmap [(Hash "a", "a", .vnum 1)]) (.vstr "a") = .ok (.vbool true) ↔
      mapIndexExpression [(Hash "a", "a", Value.vnum 1)] (.vstr "a") false ≠
        .ok Value.vnil) :=
  ⟨(c2_haskey_keys_index [(Hash "a", "a", .vnum 1)] "a"
      (by intro e he; simp only [List.mem_singleton] at he; subst he; rfl)
      (by intro e he _; simp only [List.mem_singleton] at he; subst he; rfl)).1,
   (c2_haskey_keys_index [(Hash "a", "a", .vnum 1)] "a"
      (by intro e he; simp only [List.mem_singleton] at he; subst he; rfl)
      (by intro e he _; simp only [List.mem_singleton] at he; subst he; rfl)).2
      (by intro e he; simp only [List.mem_singleton] at he; subst he; simp)⟩

/-- C4 (counterexample): a slice whose left index equals the length of the
value is rejected with an index error even when both of the claimed
conditions `lo ≤ hi` and `hi ≤ len` hold: `[7][1:1]` satisfies 0 ≤ 1, 1 ≤ 1,
1 ≤ len, but the code raises `Index is out of range` because it also requires
`lo < len`. -/
theorem c4_slice_at_length_errors :
    ((0:Int) ≤ 1 ∧ (1:Int) ≤ 1 ∧ (1:Int) ≤ ([Value.vnum 7].length : Int)) ∧
    arrayIndexExpression (.varr [.vnum 7]) (.vnum 1) (some (.vnum 1)) =
      .error "Index is out of range" := by
  refine ⟨by norm_num, rfl⟩

/-- C4 (amended): for every array (or string) value and integer indices, the
slice `v[lo:hi]` succeeds — yielding the elements from position lo up to but
excluding hi — exactly when 0 ≤ lo, lo ≤ hi, hi ≤ len(v) and additionally
lo < len(v); every other pair of indices raises a runtime index error.  In
particular the slice `v[len:len]` is rejected. -/
theorem c4_slice_success_condition (v : List Value) (cs : List Char) (lo hi : Int) :
    ((∃ r, arrayIndexExpression (.varr v) (.vnum (lo:ℚ)) (some (.vnum (hi:ℚ))) = .ok r) ↔
      (0 ≤ lo ∧ lo ≤ hi ∧ hi ≤ (v.length:Int) ∧ lo < (v.length:Int))) ∧
    (0 ≤ lo ∧ lo ≤ hi ∧ hi ≤ (v.length:Int) ∧ lo < (v.length:Int) →
      arrayIndexExpression (.varr v) (.vnum (lo:ℚ)) (some (.vnum (hi:ℚ))) =
        .ok (.varr ((v.drop lo.toNat).take (hi.toNat - lo.toNat)))) ∧
    (¬(0 ≤ lo ∧ lo ≤ hi ∧ hi ≤ (v.length:Int) ∧ lo < (v.length:Int)) →
      ∃ msg, arrayIndexExpression (.varr v) (.vnum (lo:ℚ)) (some (.vnum (hi:ℚ))) =
        .error msg) ∧
    ((∃ r, arrayIndexExpression (.vstr (String.mk cs)) (.vnum (lo:ℚ))
        (some (.vnum (hi:ℚ))) = .ok r) ↔
      (0 ≤ lo ∧ lo ≤ hi ∧ hi ≤ (cs.length:Int) ∧ lo < (cs.length:Int))) ∧
    (0 ≤ lo ∧ lo ≤ hi ∧ hi ≤ (cs.length:Int) ∧ lo < (cs.length:Int) →
      arrayIndexExpression (.vstr (String.mk cs)) (.vnum (lo:ℚ)) (some (.vnum (hi:ℚ))) =
        .ok (.vstr (String.mk ((cs.drop lo.toNat).take (hi.toNat - lo.toNat))))) ∧
    (¬(0 ≤ lo ∧ lo ≤ hi ∧ hi ≤ (cs.length:Int) ∧ lo < (cs.length:Int)) →
      ∃ msg, arrayIndexExpression (.vstr (String.mk cs)) (.vnum (lo:ℚ))
        (some (.vnum (hi:ℚ))) = .error msg) := by
  refine ⟨?_, ?_, ?_, ?_, ?_, ?_⟩
  · rw [arrayIndex_slice_closed]
    split_ifs with h1 h2
    · simp; omega
    · simp; omega
    · simp; omega
  · intro h
    rw [arrayIndex_slice_closed, if_neg (by omega), if_neg (by omega)]
  · intro h
    rw [arrayIndex_slice_closed]
    split_ifs with h1 h2
    · exact ⟨_, rfl⟩
    · exact ⟨_, rfl⟩
    · exact absurd (by omega) h
  · rw [arrayIndex_slice_closed_str]
    split_ifs with h1 h2
    · simp; omega
    · simp; omega
    · simp; omega
  · intro h
    rw [arrayIndex_slice_closed_str, if_neg (by omega), if_neg (by omega)]
  · intro h
    rw [arrayIndex_slice_closed_str]
    split_ifs with h1 h2
    · exact ⟨_, rfl⟩
    · exact ⟨_, rfl⟩
    · exact absurd (by omega) h

/-- C4 (witness): the amended bounds at concrete inputs — `[7, 8][1:2]`
succeeds with `[8]`, and an out-of-bounds pair raises an error. -/
theorem c4_slice_success_condition_witness :
    arrayIndexExpression (.varr [.vnum 7, .vnum 8]) (.vnum ((1:Int):ℚ))
        (some (.vnum ((2:Int):ℚ))) =
      .ok (.varr (([Value.vnum 7, Value.vnum 8].drop (1:Int).toNat).take
        ((2:Int).toNat - (1:Int).toNat))) ∧
    (∃ msg, arrayIndexExpression (.varr [.vnum 7]) (.vnum ((1:Int):ℚ))
        (some (.vnum ((1:Int):ℚ))) = .error msg) :=
  ⟨(c4_slice_success_condition [.vnum 7, .vnum 8] [] 1 2).2.1 (by norm_num),
   (c4_slice_success_condition [.vnum 7] [] 1 1).2.2.1 (by norm_num)⟩

/-- C5: binary `+` returns the numeric sum of two numbers, the concatenation
of two arrays, the concatenation of two strings, and string concatenation
with the representation of the other operand when exactly one side is a
string and the other a number or a boolean; every other operand combination
is a runtime error. -/
theorem c5_plus_semantics :
    (∀ a b : ℚ, visitBinaryExpression .PLUS (.vnum a) (.vnum b) = .ok (.vnum (a + b))) ∧
    (∀ xs ys : List Value,
      visitBinaryExpression .PLUS (.varr xs) (.varr ys) = .ok (.varr (xs ++ ys))) ∧
    (∀ s t : String,
      visitBinaryExpression .PLUS (.vstr s) (.vstr t) = .ok (.vstr (s ++ t))) ∧
    (∀ (s : String) (q : ℚ),
      visitBinaryExpression .PLUS (.vstr s) (.vnum q) =
        .ok (.vstr (s ++ Representation (.vnum q))) ∧
      visitBinaryExpression .PLUS (.vnum q) (.vstr s) =
        .ok (.vstr (Representation (.vnum q) ++ s))) ∧
    (∀ (s : String) (b : Bool),
      visitBinaryExpression .PLUS (.vstr s) (.vbool b) =
        .ok (.vstr (s ++ Representation (.vbool b))) ∧
      visitBinaryExpression .PLUS (.vbool b) (.vstr s) =
        .ok (.vstr (Representation (.vbool b) ++ s))) ∧
    (∀ l r : Value, plusCompatible l r = false →
      ∃ msg, visitBinaryExpression .PLUS l r = .error msg) := by
  refine ⟨fun a b => rfl, fun xs ys => rfl, fun s t => rfl, fun s q => ⟨rfl, rfl⟩,
    fun s b => ⟨rfl, rfl⟩, ?_⟩
  intro l r h
  cases l <;> cases r <;> simp [plusCompatible] at h <;>
    simp [visitBinaryExpression, Value.asNum, Value.asArr, Value.asStr, concatenate] <;>
    exact ⟨_, rfl⟩

/-- C5 (witness): `2 + 3` adds, `5 + "=x"` concatenates through the number
representation, and `nil + 1` is a runtime error. -/
theorem c5_plus_semantics_witness :
    visitBinaryExpression .PLUS (.vnum 2) (.vnum 3) = .ok (.vnum (2 + 3)) ∧
    visitBinaryExpression .PLUS (.vnum 5) (.vstr "=x") =
      .ok (.vstr (Representation (.vnum 5) ++ "=x")) ∧
    (∃ msg, visitBinaryExpression .PLUS Value.vnil (.vnum 1) = .error msg) :=
  ⟨c5_plus_semantics.1 2 3, (c5_plus_semantics.2.2.2.1 "=x" 5).2,
   c5_plus_semantics.2.2.2.2.2 Value.vnil (.vnum 1) (by rfl)⟩

/-- C7: The repository documents and parses `get`/`set` keywords (README,
parser `classDeclaration`, the GET/SET token types, and the getter/setter
test cases), but the keyword table shipped in keywords.go has no entries for
them: the scanner classifies the words get and set as plain identifiers, so
getter and setter declarations can never parse.  The nineteen words that are
in the table are matched as the claim describes. -/
theorem c7_get_set_scan_as_identifiers :
    LookupKeyword "get" = TokenType.IDENTIFIER ∧
    LookupKeyword "set" = TokenType.IDENTIFIER ∧
    ((ScanTokens "get").tokens.map Token.type = [.IDENTIFIER, .EOF]) ∧
    ((ScanTokens "set").tokens.map Token.type = [.IDENTIFIER, .EOF]) ∧
    ((ScanTokens "while").tokens.map Token.type = [.WHILE, .EOF]) ∧
    (∀ p ∈ keywords, p.1 ≠ "get" ∧ p.1 ≠ "set") := by
  decide

/-- C8: Scanning the input `4.` — a number literal whose trailing dot is not
followed by a digit — reports no error at all: the scanner emits the NUMBER
token `4` followed by a DOT token, while the repository's own test suite
(interpreter_test.go, TestScannerErrors) expects the message
`Unterminated number literal.` for this input. -/
theorem c8_trailing_dot_reports_no_error :
    (ScanTokens "4.").errors = [] ∧
    ((ScanTokens "4.").tokens.map Token.type = [.NUMBER, .DOT, .EOF]) ∧
    ((ScanTokens "4.").tokens.map Token.lexeme = ["4", ".", ""]) := by
  decide

/-- C3 (counterexample): a run whose only reported error is a resolution
error terminates with exit code 0, not 65: `RunFile` tests `HadParsingError`
and `HadRuntimeError` but never `HadResolutionError`. -/
theorem c3_resolution_error_exits_zero :
    (runFlags RunOutcome.resolveFailed).HadResolutionError = true ∧
    runFileResult RunOutcome.resolveFailed = 0 := by
  decide

/-- C3 (amended): running a file exits 0 on normal completion, 65 whenever a
scanning or parse error was reported, 70 whenever a runtime error was
reported, and 0 when only a resolution error was reported (interpretation is
still aborted inside `run`, but `RunFile` never consults the resolution
flag). -/
theorem c3_exit_codes :
    runFileResult RunOutcome.ok = 0 ∧
    runFileResult RunOutcome.scanFailed = 65 ∧
    runFileResult RunOutcome.parseFailed = 65 ∧
    runFileResult RunOutcome.runtimeFailed = 70 ∧
    runFileResult RunOutcome.resolveFailed = 0 := by
  decide

/-- C1: For the program `{ var a = (() => a)() }` the resolver succeeds and
marks the read of `a` inside the lambda with distance 1, yet at evaluation
time the distance-1 ancestor of the current environment chain — the block
environment, whose `define("a")` has not executed yet — holds no binding for
`a`: `getAt(1, "a")` reads a Go map key that does not exist and silently
yields nil, while execution completes without any error.  The chain itself is
long enough (length 3 > 1); the claimed invariant fails in its binding
clause, against the source's own comment that it is `safe to not check for an
error as the resolver should have done its job`. -/
theorem c1_resolved_distance_without_binding :
    (Resolve 100 closureInInitializerProgram).map (fun r => r.locals) =
      .ok [(1, 1)] ∧
    (execStmts 100 (InterpState.initial [(1, 1)]) closureInInitializerProgram).1 =
      .ok () ∧
    (execStmts 100 (InterpState.initial [(1, 1)]) closureInInitializerProgram).2.lookups =
      [{ exprId := 1, name := "a", distance := 1, chainLen := 3
       , ancestorHasBinding := false }] ∧
    1 < 3 :=
  ⟨rfl, rfl, rfl, by norm_num⟩

/-- C6: when a statement of a loop body signals `continue`, the remaining
statements of the body are abandoned (first conjunct), and a full loop
iteration whose body signals `continue` still evaluates the increment in the
restored loop environment and proceeds to the next condition test on exactly
the post-increment state (second conjunct). -/
theorem c6_continue_runs_increment (g : Nat) :
    (∀ (st : Stmt) (rest : List Stmt) (s s1 : InterpState),
      execStmt g s st = (.error .cont, s1) →
      execStmts (g + 1) s (st :: rest) = (.error .cont, s1)) ∧
    (∀ (cond : Expr) (body : Stmt) (inc : Expr) (env0 : Nat)
      (s sc s1 s2 : InterpState) (cv w : Value),
      evalExpr (g + 1) s cond = (.ok cv, sc) →
      isTruthy cv = true →
      execStmt g sc body = (.error .cont, s1) →
      evalExpr g { s1 with env := sc.env } inc = (.ok w, s2) →
      loopIter (g + 2) s cond body (some inc) env0 =
        loopIter (g + 1) s2 cond body (some inc) env0) := by
  constructor
  · intro st rest s s1 hst
    simp only [execStmts, hst]
  · intro cond body inc env0 s sc s1 s2 cv w hcond htruthy hbody hinc
    simp only [loopIter, hcond, htruthy, Bool.not_true, Bool.false_eq_true,
      if_false, executeLoopBody, hbody, hinc]

/-- C6 (witness): a body that is just `continue`, with condition `true` and
increment `1`: the iteration at fuel g+2 steps to the loop continuation, and
a following statement after the `continue` is abandoned. -/
theorem c6_continue_runs_increment_witness :
    execStmts 11 (InterpState.initial [])
      (Stmt.continueStmt :: [.exprStmt (.literal (.vnum 0))]) =
      (.error .cont, InterpState.initial []) ∧
    loopIter 12 (InterpState.initial []) (.literal (.vbool true)) .continueStmt
        (some (.literal (.vnum 1))) 0 =
      loopIter 11 { InterpState.initial [] with env := (InterpState.initial []).env }
        (.literal (.vbool true)) .continueStmt (some (.literal (.vnum 1))) 0 :=
  ⟨(c6_continue_runs_increment 10).1 .continueStmt [.exprStmt (.literal (.vnum 0))]
      (InterpState.initial []) (InterpState.initial []) rfl,
   (c6_continue_runs_increment 10).2 (.literal (.vbool true)) .continueStmt
      (.literal (.vnum 1)) 0 (InterpState.initial []) (InterpState.initial [])
      (InterpState.initial []) _ (.vbool true) (.vnum 1) rfl rfl rfl rfl⟩

/-- C9 (counterexample): `VisitSequenceExpression` returns the Go zero value
of `var result any`, which is the very same nil as the nil literal, so the
program `() == nil` evaluates to true — the claim says it evaluates to false
and that the result of `()` is never equal to any user-constructible
value. -/
theorem c9_empty_sequence_equals_nil :
    (Interpret 100 [] emptySeqEqNilProgram).1 = some (.vbool true) ∧
    (evalExpr 100 (InterpState.initial []) (.sequence [])).1 = .ok .vnil ∧
    visitBinaryExpression .EQUAL_EQUAL .vnil .vnil = .ok (.vbool true) :=
  ⟨rfl, rfl, rfl⟩

/-- C9 (amended): evaluating the empty sequence expression `()` yields nil —
the same nil the nil literal yields, not a distinguished value — and
`() == nil` evaluates to true. -/
theorem c9_empty_sequence_yields_nil (fuel : Nat) (s : InterpState) :
    evalExpr (fuel + 2) s (.sequence []) = (.ok .vnil, s) ∧
    evalExpr (fuel + 2) s (.literal .vnil) = (.ok .vnil, s) ∧
    evalExpr (fuel + 3) s (.binary .EQUAL_EQUAL (.sequence []) (.literal .vnil)) =
      (.ok (.vbool true), s) :=
  ⟨rfl, rfl, rfl⟩

/-- C10: after resolving any loop or for-each statement the resolver leaves
the in-loop flag false whatever it was before (first two conjuncts — the flag
is not restored to the enclosing value), and consequently the program
`while (true) { while (true) {} break }` — whose break is lexically inside
the outer loop but follows the nested loop — is rejected with the
break-outside-loop resolution error (and likewise for continue), while the
same break without the nested loop resolves fine. -/
theorem c10_loop_flag_cleared_unconditionally :
    (∀ (fuel : Nat) (r : RState) (cond : Expr) (body : Stmt) (inc : Option Expr),
      (resolveStmt (fuel + 1) r (.loop cond body inc)).map (fun st => st.loop) =
      (resolveStmt (fuel + 1) r (.loop cond body inc)).map (fun _ => false)) ∧
    (∀ (fuel : Nat) (r : RState) (varName : String) (arr : Expr) (body : Stmt),
      (resolveStmt (fuel + 1) r (.forEach varName arr body)).map (fun st => st.loop) =
      (resolveStmt (fuel + 1) r (.forEach varName arr body)).map (fun _ => false)) ∧
    Resolve 100 nestedBreakProgram = .error .breakNotInLoop ∧
    Resolve 100 nestedContinueProgram = .error .continueNotInLoop ∧
    (∃ r, Resolve 100 breakOnlyProgram = .ok r) := by
  refine ⟨?_, ?_, rfl, rfl, ⟨_, rfl⟩⟩
  · intro fuel r cond body inc
    simp only [resolveStmt]
    cases h1 : resolveExpr fuel r cond with
    | error e => rfl
    | ok r1 =>
        simp only [exceptBind_ok]
        cases h2 : resolveStmt fuel { r1 with loop := true } body with
        | error e => simp [exceptBind_error, exceptMap_error]
        | ok r2 =>
            simp only [exceptBind_ok]
            cases inc with
            | none => simp [exceptBind_ok, exceptMap_ok]
            | some i =>
                cases h3 : resolveExpr fuel r2 i with
                | error e => simp [exceptBind_error, exceptMap_error, h3]
                | ok r3 => simp [exceptBind_ok, exceptMap_ok, h3]
  · intro fuel r varName arr body
    simp only [resolveStmt]
    cases h1 : resolveExpr fuel r arr with
    | error e => rfl
    | ok r1 =>
        simp only [exceptBind_ok]
        cases h2 : r1.beginScope.declare varName with
        | error e => simp [exceptBind_error, exceptMap_error]
        | ok r2 =>
            simp only [exceptBind_ok]
            cases h3 : resolveStmt fuel { r2.define varName with loop := true } body with
            | error e => simp [exceptBind_error, exceptMap_error]
            | ok r4 => simp [exceptBind_ok, exceptMap_ok, RState.endScope]

end Glox
